import Mathlib

/-!
Verification of the knowledge-base provisioning script and the RAG chat route.

The script's effectful AWS SDK calls are embedded shallowly: each network call
becomes an explicit `Except AwsError _` argument supplied by the environment,
and the functions below mirror the control flow of the TypeScript source
(`createDocumentsBucket`, `createVectorsBucket`, `createVectorIndex`,
`getExistingKeys`, `uploadDocuments`, `waitForKnowledgeBase`) and of the chat
route's `findRelevantContent`.
-/

set_option linter.unusedVariables false

deriving instance DecidableEq for Except

namespace RagKb

/-- An error thrown by an AWS SDK call; `name` mirrors the JavaScript
`error.name` field that the source inspects. -/
structure AwsError where
  name : String
deriving DecidableEq

/-! ### `createDocumentsBucket` (provisioning script, lines 34-58)

The source sends `CreateBucketCommand`, then calls `waitUntilBucketExists`
before returning the bucket name; in the `catch`, an error named
`BucketAlreadyOwnedByYou` is converted into a success return of the same
name (without any wait), and any other error is rethrown.

The embedding takes the outcome of the create call and of the waiter as
inputs and returns, on success, the bucket name together with a `Bool`
recording whether `waitUntilBucketExists` ran to completion before the
success was declared. -/
def createDocumentsBucket (bucketName : String)
    (createResult : Except AwsError Unit)
    (waitResult : Except AwsError Unit) : Except AwsError (String × Bool) :=
  match createResult with
  | .ok _ =>
    match waitResult with
    | .ok _ => .ok (bucketName, true)
    | .error e =>
      if e.name = "BucketAlreadyOwnedByYou" then .ok (bucketName, false)
      else .error e
  | .error e =>
    if e.name = "BucketAlreadyOwnedByYou" then .ok (bucketName, false)
    else .error e

/-! ### `createVectorsBucket` (provisioning script, lines 139-162)

On a successful `CreateVectorBucketCommand` the source returns
`response.vectorBucketArn`.  In the `catch`, the branch on
`error.name === 'VectorBucketAlreadyExists'` only chooses the spinner
message; both branches fall through to `throw error`. -/
structure CreateVectorBucketResponse where
  vectorBucketArn : String
deriving DecidableEq

def createVectorsBucket (bucketName : String)
    (sendResult : Except AwsError CreateVectorBucketResponse) :
    Except AwsError String :=
  match sendResult with
  | .ok response => .ok response.vectorBucketArn
  | .error e =>
    -- the `if` in the source selects a log message only; control then
    -- reaches the shared `throw error` in both branches
    if e.name = "VectorBucketAlreadyExists" then .error e else .error e

/-! ### `createVectorIndex` (provisioning script, lines 165-202) -/
structure CreateIndexResponse where
  indexArn : String
deriving DecidableEq

def createVectorIndex (vectorBucketArn : String) (indexName : String)
    (sendResult : Except AwsError CreateIndexResponse) :
    Except AwsError String :=
  match sendResult with
  | .ok response => .ok response.indexArn
  | .error e =>
    if e.name = "IndexAlreadyExists" then
      .ok (vectorBucketArn ++ "/index/" ++ indexName)
    else
      .error e

/-! ### `waitForKnowledgeBase` (provisioning script, lines 294-334)

A `while attempts < maxAttempts` loop.  Each iteration sends
`GetKnowledgeBaseCommand` inside a `try`: an `ACTIVE` status returns,
a `FAILED` status throws `Error('Knowledge Base creation failed')` —
note that this throw happens INSIDE the `try`, so it lands in the very
`catch` meant for transient query errors — any other status increments
`attempts` and sleeps 10000 ms.  The `catch` rethrows when
`attempts >= maxAttempts - 1` and otherwise increments `attempts` and
sleeps.  Falling out of the loop throws the timeout error.

One status check is modelled as `Except String (Option String)`: `.error e`
is an SDK call that threw, `.ok st` is `response.knowledgeBase?.status`.
The result records the outcome, the number of status checks performed and
the total milliseconds slept. -/
structure PollResult where
  outcome : Except String Unit
  checks : Nat
  sleptMs : Nat
deriving DecidableEq

def kbFailedMsg : String := "Knowledge Base creation failed"

def kbTimeoutMsg : String := "Timeout waiting for Knowledge Base to become active"

def pollIntervalMs : Nat := 10000

def kbMaxAttempts : Nat := 30

/-- The loop body; `fuel` is `maxAttempts - attempts`, maintained by the
caller so that running out of fuel is exactly the `while` condition
turning false. -/
def waitLoop (check : Nat → Except String (Option String)) (maxAttempts : Nat) :
    Nat → Nat → Nat → PollResult
  | 0, attempts, slept => ⟨.error kbTimeoutMsg, attempts, slept⟩
  | fuel + 1, attempts, slept =>
    match check attempts with
    | .ok status =>
      if status = some "ACTIVE" then
        ⟨.ok (), attempts + 1, slept⟩
      else if status = some "FAILED" then
        -- `throw new Error('Knowledge Base creation failed')`, caught by the
        -- surrounding catch block of the same iteration
        if maxAttempts - 1 ≤ attempts then
          ⟨.error kbFailedMsg, attempts + 1, slept⟩
        else
          waitLoop check maxAttempts fuel (attempts + 1) (slept + pollIntervalMs)
      else
        waitLoop check maxAttempts fuel (attempts + 1) (slept + pollIntervalMs)
    | .error e =>
      if maxAttempts - 1 ≤ attempts then
        ⟨.error e, attempts + 1, slept⟩
      else
        waitLoop check maxAttempts fuel (attempts + 1) (slept + pollIntervalMs)

def waitForKnowledgeBase (check : Nat → Except String (Option String)) :
    PollResult :=
  waitLoop check kbMaxAttempts kbMaxAttempts 0 0

/-! ### `getExistingKeys` (provisioning script, lines 83-100)

A `do { ... } while (continuationToken)` loop over `ListObjectsV2Command`.
Each response contributes the truthy `Key`s of its `Contents` to a set, and
the next token is `IsTruncated ? NextContinuationToken : undefined`; the
loop repeats while that token is truthy (a JavaScript string is truthy
exactly when it is nonempty).

The listing service is modelled as the sequence of responses it returns on
successive calls; when the model sequence is exhausted the loop is treated
as receiving an empty, non-truncated page (so it stops with no token). -/
structure ListResponse where
  contents : List String
  isTruncated : Bool
  nextContinuationToken : Option String
deriving DecidableEq

/-- JavaScript truthiness of a `string | undefined` value. -/
def truthyToken : Option String → Bool
  | none => false
  | some s => !(s == "")

/-- The keys a single response contributes (`if (item.Key) keys.add(item.Key)`). -/
def pageKeys (r : ListResponse) : Finset String :=
  (r.contents.filter (fun k => !(k == ""))).toFinset

/-- `continuationToken = response.IsTruncated ? response.NextContinuationToken
: undefined`. -/
def pageToken (r : ListResponse) : Option String :=
  if r.isTruncated then r.nextContinuationToken else none

def getExistingKeysLoop : List ListResponse → Finset String →
    Finset String × Option String
  | [], acc => (acc, none)
  | r :: rest, acc =>
    if truthyToken (pageToken r) then getExistingKeysLoop rest (acc ∪ pageKeys r)
    else (acc ∪ pageKeys r, pageToken r)

def getExistingKeys (pages : List ListResponse) : Finset String × Option String :=
  getExistingKeysLoop pages ∅

/-! ### `uploadDocuments` (provisioning script, lines 102-136)

For each local file the key is
`path.relative(DOCUMENTS_DIR, filePath).replace(/\\/g, '/')`; the file is
uploaded exactly when that key is not in the previously fetched
`existingKeys` set.  Local files are modelled by their paths relative to
the documents root; the upload plan is the sublist of local files the loop
sends `PutObjectCommand` for.  The plan is computed from the snapshot
`existingKeys` only — the loop never modifies that set. -/
def normalizeKey (s : String) : String :=
  s.map fun c => if c = '\\' then '/' else c

def uploadPlan (localFiles : List String) (existingKeys : Finset String) :
    List String :=
  localFiles.filter fun f => !(decide (normalizeKey f ∈ existingKeys))

/-- The set of remote keys the plan would create. -/
def planKeys (localFiles : List String) (existingKeys : Finset String) :
    Finset String :=
  ((uploadPlan localFiles existingKeys).map normalizeKey).toFinset

/-! ### `findRelevantContent` (chat route, lines 42-75)

Reads `process.env.S3_VECTORS_INDEX_ARN`; when that value is falsy it
returns `""` without any network call.  Otherwise it computes a query
embedding and issues the top-k (k = 5) similarity query inside a single
`try`, and any thrown error is caught and converted to `""`.  On success
the passages are
`(queryResponse.vectors || []).map(r => r.metadata?.AMAZON_BEDROCK_TEXT || "").join("\n\n---\n\n")`.

A result vector is modelled by its optional metadata object (a key-value
list); the embedding call and the query call are modelled by their
outcomes, supplied as inputs. -/
structure VectorResult where
  metadata : Option (List (String × String))
deriving DecidableEq

/-- `result.metadata?.AMAZON_BEDROCK_TEXT || ""` (a missing object, a
missing field and an empty-string field all produce `""`). -/
def vectorText (v : VectorResult) : String :=
  match v.metadata with
  | none => ""
  | some m =>
    match m.lookup "AMAZON_BEDROCK_TEXT" with
    | none => ""
    | some t => t

def ragSeparator : String := "\n\n---\n\n"

/-- JavaScript truthiness of the environment variable read. -/
def envTruthy : Option String → Bool
  | none => false
  | some s => !(s == "")

def findRelevantContent (indexArn : Option String)
    (embedResult : Except AwsError (List Int))
    (queryResult : Except AwsError (Option (List VectorResult))) : String :=
  if !(envTruthy indexArn) then ""
  else
    match embedResult with
    | .error _ => ""
    | .ok _ =>
      match queryResult with
      | .error _ => ""
      | .ok vectors =>
        String.intercalate ragSeparator ((vectors.getD []).map vectorText)

/-- A vector whose metadata carries the raw-text field. -/
def mkTextVector (t : String) : VectorResult :=
  ⟨some [("AMAZON_BEDROCK_TEXT", t)]⟩

/-! ### Separator-delimited segments

`segCount s` is the number of segments of `s` delimited by the chat
separator `"\n\n---\n\n"`: one more than the number of non-overlapping
occurrences of the separator found by a greedy left-to-right scan (the
count of pieces `String.split`-style splitting on the separator yields).
The scan is written with explicit fuel so that it is structurally
recursive and evaluable. -/
def sepChars : List Char := ['\n', '\n', '-', '-', '-', '\n', '\n']

def segCountAux (sep : List Char) : Nat → List Char → Nat
  | _, [] => 1
  | 0, _ :: _ => 1
  | fuel + 1, c :: cs =>
    if sep.isPrefixOf (c :: cs) then
      1 + segCountAux sep fuel (cs.drop (sep.length - 1))
    else
      segCountAux sep fuel cs

def segCountL (l : List Char) : Nat := segCountAux sepChars l.length l

def segCount (s : String) : Nat := segCountL s.data

/-! ## Claim theorems -/

/-- C1: contrary to the claim, `createVectorsBucket` does NOT treat the
`VectorBucketAlreadyExists` error as success: the `catch` block's branch on
that error name only selects a log message and control falls through to the
shared `throw error`, so the error propagates and provisioning aborts.
This theorem evaluates the embedded function at the failing input. -/
theorem createVectorsBucket_alreadyExists_throws :
    createVectorsBucket "kb-vectors" (.error ⟨"VectorBucketAlreadyExists"⟩)
      = .error ⟨"VectorBucketAlreadyExists"⟩ := by
  decide

/-- C2: contrary to the claim, `waitForKnowledgeBase` does NOT fail fast on
an explicit `FAILED` status: the `throw` for `FAILED` happens inside the
`try`, so the loop's own `catch` swallows it and keeps polling.  With the
status sequence `[FAILED, ACTIVE]` the poller returns success after two
checks, and with `FAILED` on every check the terminal failure error only
propagates after the full 30-check budget is exhausted. -/
theorem waitForKnowledgeBase_failed_retried :
    waitForKnowledgeBase
        (fun i => .ok (some (if i = 0 then "FAILED" else "ACTIVE")))
      = ⟨.ok (), 2, 10000⟩ ∧
    waitForKnowledgeBase (fun _ => .ok (some "FAILED"))
      = ⟨.error kbFailedMsg, 30, 290000⟩ := by
  constructor <;> decide

/-- C4: the activation poller uses a 10000 ms fixed interval and a budget of
30 attempts; on the status sequence `[CREATING, CREATING, ACTIVE]` it
returns success after exactly 3 checks (sleeping twice), and on 30
consecutive `CREATING` statuses it returns the timeout error after the
30th check (sleeping after each), an outcome distinct from the
explicit-`FAILED` error message. -/
theorem waitForKnowledgeBase_budget_and_timeout :
    kbMaxAttempts = 30 ∧ pollIntervalMs = 10000 ∧
    waitForKnowledgeBase
        (fun i => .ok (some (if i < 2 then "CREATING" else "ACTIVE")))
      = ⟨.ok (), 3, 20000⟩ ∧
    waitForKnowledgeBase (fun _ => .ok (some "CREATING"))
      = ⟨.error kbTimeoutMsg, 30, 300000⟩ ∧
    (kbTimeoutMsg == kbFailedMsg) = false := by
  refine ⟨rfl, rfl, by decide, by decide, by decide⟩

/-- C5 counterexample: a successful return of `createDocumentsBucket` that
did not wait for the bucket to become visible — when the create call throws
`BucketAlreadyOwnedByYou`, the function returns success immediately from
the `catch`, never reaching `waitUntilBucketExists` (the waited flag is
`false`). -/
theorem createDocumentsBucket_alreadyExists_no_wait :
    createDocumentsBucket "kb-documents" (.error ⟨"BucketAlreadyOwnedByYou"⟩)
        (.ok ()) = .ok ("kb-documents", false) := by
  decide

/-- C5 (amended): only the fresh-create success path of
`createDocumentsBucket` blocks until the service reports the bucket as
existing before declaring success; the already-exists path returns the same
bucket name as a fresh create, as success, but immediately and without
waiting, and any other create error propagates. -/
theorem createDocumentsBucket_wait_semantics :
    (∀ n : String, createDocumentsBucket n (.ok ()) (.ok ()) = .ok (n, true)) ∧
    (∀ (n : String) (e : AwsError) (w : Except AwsError Unit),
      e.name = "BucketAlreadyOwnedByYou" →
        createDocumentsBucket n (.error e) w = .ok (n, false)) ∧
    (∀ (n : String) (e : AwsError) (w : Except AwsError Unit),
      e.name ≠ "BucketAlreadyOwnedByYou" →
        createDocumentsBucket n (.error e) w = .error e) := by
  refine ⟨fun n => rfl, fun n e w h => ?_, fun n e w h => ?_⟩
  · simp [createDocumentsBucket, h]
  · simp [createDocumentsBucket, h]

/-- C5 witness: the amended theorem applied at concrete inputs. -/
theorem createDocumentsBucket_wait_semantics_witness :
    createDocumentsBucket "docs" (.ok ()) (.ok ()) = .ok ("docs", true) ∧
    createDocumentsBucket "docs" (.error ⟨"BucketAlreadyOwnedByYou"⟩) (.ok ())
      = .ok ("docs", false) ∧
    createDocumentsBucket "docs" (.error ⟨"AccessDenied"⟩) (.ok ())
      = .error ⟨"AccessDenied"⟩ :=
  ⟨createDocumentsBucket_wait_semantics.1 "docs",
   createDocumentsBucket_wait_semantics.2.1 "docs" ⟨"BucketAlreadyOwnedByYou"⟩
     (.ok ()) rfl,
   createDocumentsBucket_wait_semantics.2.2 "docs" ⟨"AccessDenied"⟩
     (.ok ()) (by decide)⟩

/-- C7: when index creation fails with the `IndexAlreadyExists` error,
`createVectorIndex` returns success with the ARN reconstructed as
`{vectorBucketArn}/index/{indexName}` rather than re-fetching it. -/
theorem createVectorIndex_alreadyExists_arn
    (vectorBucketArn indexName : String) (e : AwsError)
    (h : e.name = "IndexAlreadyExists") :
    createVectorIndex vectorBucketArn indexName (.error e)
      = .ok (vectorBucketArn ++ "/index/" ++ indexName) := by
  simp [createVectorIndex, h]

/-- C7 witness: the theorem applied at a concrete bucket ARN and index name. -/
theorem createVectorIndex_alreadyExists_arn_witness :
    createVectorIndex "arn:aws:s3vectors:us-east-1:123:bucket/kb-vectors"
        "kb-index" (.error ⟨"IndexAlreadyExists"⟩)
      = .ok "arn:aws:s3vectors:us-east-1:123:bucket/kb-vectors/index/kb-index" :=
  createVectorIndex_alreadyExists_arn _ _ _ rfl

/-- C3: the upload plan is exactly the set difference between the
normalized local keys and the remote key set (the differencer is a pure
function of the local list and the remote snapshot — it never modifies the
remote set), and re-running the differencer against the remote set enlarged
by the plan's keys yields the empty plan: a second run with no new files
performs zero uploads. -/
theorem uploadPlan_diff_and_idempotent (L : List String) (R : Finset String) :
    planKeys L R = (L.map normalizeKey).toFinset \ R ∧
    uploadPlan L (R ∪ planKeys L R) = [] := by
  constructor
  · ext x
    simp only [planKeys, uploadPlan, List.mem_toFinset, List.mem_map,
      List.mem_filter, Finset.mem_sdiff, Bool.not_eq_eq_eq_not, Bool.not_true,
      decide_eq_false_iff_not]
    constructor
    · rintro ⟨a, ⟨ha, hnot⟩, rfl⟩
      exact ⟨⟨a, ha, rfl⟩, hnot⟩
    · rintro ⟨⟨a, ha, rfl⟩, hnot⟩
      exact ⟨a, ⟨ha, hnot⟩, rfl⟩
  · rw [uploadPlan, List.filter_eq_nil_iff]
    intro f hf
    simp only [Bool.not_eq_eq_eq_not, Bool.not_true, decide_eq_false_iff_not,
      Finset.mem_union, not_or, not_not]
    intro hcontra
    rcases hcontra with ⟨hR, hP⟩
    by_cases hmem : normalizeKey f ∈ R
    · exact hR hmem
    · apply hP
      simp only [planKeys, List.mem_toFinset, List.mem_map]
      exact ⟨f, by simp [uploadPlan, hf, hmem], rfl⟩

/-- Helper for C6: running the listing loop over a well-formed page
sequence (every page but the last hands out a truthy continuation token,
the last is not truncated) accumulates the union of all page key sets and
finishes with no token. -/
theorem getExistingKeysLoop_spec :
    ∀ (pages : List ListResponse) (acc : Finset String) (hne : pages ≠ []),
      (∀ r ∈ pages.dropLast, truthyToken (pageToken r) = true) →
      (pages.getLast hne).isTruncated = false →
      getExistingKeysLoop pages acc
        = (acc ∪ pages.foldr (fun r s => pageKeys r ∪ s) ∅, none)
  | [], _, hne, _, _ => absurd rfl hne
  | [r], acc, _, _, hl => by
    simp only [List.getLast_singleton] at hl
    simp [getExistingKeysLoop, pageToken, hl, truthyToken]
  | r :: r' :: rest, acc, _, hc, hl => by
    have hr : truthyToken (pageToken r) = true := by
      apply hc
      simp [List.dropLast_cons₂]
    have htail :
        getExistingKeysLoop (r' :: rest) (acc ∪ pageKeys r)
          = (acc ∪ pageKeys r ∪
              (r' :: rest).foldr (fun r s => pageKeys r ∪ s) ∅, none) := by
      apply getExistingKeysLoop_spec (r' :: rest) (acc ∪ pageKeys r)
        (List.cons_ne_nil _ _)
      · intro x hx
        apply hc
        rw [List.dropLast_cons₂]
        exact List.mem_cons_of_mem _ hx
      · rw [← List.getLast_cons (l := r' :: rest) (List.cons_ne_nil _ _)]
        exact hl
    have hstep : getExistingKeysLoop (r :: r' :: rest) acc
        = getExistingKeysLoop (r' :: rest) (acc ∪ pageKeys r) := by
      simp only [getExistingKeysLoop, hr, if_true]
    rw [hstep, htail]
    simp [Finset.union_assoc]

/-- C6: `getExistingKeys` paginates exactly while a continuation token
remains: over a listing service returning several pages chained by
continuation tokens, the collected key set is the union of the keys of all
pages and the loop ends with no token remaining. -/
theorem getExistingKeys_collects_all_pages (pages : List ListResponse)
    (hne : pages ≠ [])
    (hc : ∀ r ∈ pages.dropLast, truthyToken (pageToken r) = true)
    (hl : (pages.getLast hne).isTruncated = false) :
    getExistingKeys pages
      = (pages.foldr (fun r s => pageKeys r ∪ s) ∅, none) := by
  have h := getExistingKeysLoop_spec pages ∅ hne hc hl
  simpa [getExistingKeys] using h

/-- C6 witness: a two-page listing with a continuation token after the
first page; the collected set is the union of both pages' keys. -/
theorem getExistingKeys_collects_all_pages_witness :
    getExistingKeys
        [⟨["a.md", "b.md"], true, some "token1"⟩, ⟨["c.md"], false, none⟩]
      = ([(⟨["a.md", "b.md"], true, some "token1"⟩ : ListResponse),
          ⟨["c.md"], false, none⟩].foldr (fun r s => pageKeys r ∪ s) ∅,
         none) :=
  getExistingKeys_collects_all_pages _ (by decide) (by decide) (by decide)

/-- C8: when the similarity query returns k = 5 vectors each carrying the
raw-text metadata field, `findRelevantContent` (the body of the chat tool
`getInformation`) returns exactly those 5 texts joined by
`"\n\n---\n\n"`, in the order the query returned them. -/
theorem findRelevantContent_joins_topk (arn : String) (h : arn ≠ "")
    (emb : List Int) (ts : List String) (hlen : ts.length = 5) :
    findRelevantContent (some arn) (.ok emb) (.ok (some (ts.map mkTextVector)))
      = String.intercalate ragSeparator ts := by
  have harn : envTruthy (some arn) = true := by simp [envTruthy, h]
  have hid : ∀ t, vectorText (mkTextVector t) = t := by
    intro t
    simp [vectorText, mkTextVector, List.lookup]
  have hcomp : vectorText ∘ mkTextVector = id := funext hid
  simp [findRelevantContent, harn, List.map_map, hcomp]

/-- C8 witness: five concrete passages. -/
theorem findRelevantContent_joins_topk_witness :
    findRelevantContent (some "arn:aws:s3vectors:idx") (.ok [1, 2])
        (.ok (some (["p1", "p2", "p3", "p4", "p5"].map mkTextVector)))
      = String.intercalate ragSeparator ["p1", "p2", "p3", "p4", "p5"] :=
  findRelevantContent_joins_topk _ (by decide) _ _ (by decide)

/-- C9: `findRelevantContent` never propagates a failure: it is a total
function into `String`, and (a) when the index ARN is unconfigured (falsy)
it returns `""` whatever the embedding and query services would do — i.e.
without depending on, hence without issuing, any call — (b) an embedding
failure yields `""`, and (c) a similarity-query failure yields `""`; a
retrieval failure degrades to empty context. -/
theorem findRelevantContent_degrades_to_empty
    (arn : Option String) (emb : Except AwsError (List Int))
    (q : Except AwsError (Option (List VectorResult))) :
    (envTruthy arn = false → findRelevantContent arn emb q = "") ∧
    (∀ e : AwsError, findRelevantContent arn (.error e) q = "") ∧
    (∀ (e : AwsError) (emb2 : List Int),
      findRelevantContent arn (.ok emb2) (.error e) = "") := by
  refine ⟨fun h => ?_, fun e => ?_, fun e emb2 => ?_⟩
  · simp [findRelevantContent, h]
  · by_cases h : envTruthy arn <;> simp [findRelevantContent, h]
  · by_cases h : envTruthy arn <;> simp [findRelevantContent, h]

/-- C9 witness: the three degradation paths at concrete inputs. -/
theorem findRelevantContent_degrades_to_empty_witness :
    findRelevantContent none (.ok [1]) (.ok (some [mkTextVector "x"])) = "" ∧
    findRelevantContent (some "arn") (.error ⟨"ThrottlingException"⟩)
      (.ok none) = "" ∧
    findRelevantContent (some "arn") (.ok [1]) (.error ⟨"AccessDenied"⟩) = "" :=
  ⟨(findRelevantContent_degrades_to_empty none (.ok [1])
      (.ok (some [mkTextVector "x"]))).1 rfl,
   (findRelevantContent_degrades_to_empty (some "arn")
      (.error ⟨"ThrottlingException"⟩) (.ok none)).2.1 ⟨"ThrottlingException"⟩,
   (findRelevantContent_degrades_to_empty (some "arn") (.ok [1])
      (.error ⟨"AccessDenied"⟩)).2.2 ⟨"AccessDenied"⟩ [1]⟩

/-! ### Lemmas about the segment-counting scan (for C10) -/

/-- The scan is insensitive to the exact fuel as long as it covers the
list length. -/
theorem segCountAux_fuel_eq (sep : List Char) (f1 : Nat) :
    ∀ (f2 : Nat) (l : List Char), l.length ≤ f1 → l.length ≤ f2 →
      segCountAux sep f1 l = segCountAux sep f2 l := by
  induction f1 with
  | zero =>
    intro f2 l h1 _
    have hl : l = [] := List.length_eq_zero.mp (Nat.le_zero.mp h1)
    subst hl
    simp [segCountAux]
  | succ n ih =>
    intro f2 l h1 h2
    cases l with
    | nil => simp [segCountAux]
    | cons c cs =>
      cases f2 with
      | zero => simp at h2
      | succ m =>
        simp only [List.length_cons, Nat.add_le_add_iff_right] at h1 h2
        by_cases hp : sep.isPrefixOf (c :: cs)
        · simp only [segCountAux, hp, if_true]
          have hd : (cs.drop (sep.length - 1)).length ≤ n := by
            simp only [List.length_drop]
            omega
          have hd2 : (cs.drop (sep.length - 1)).length ≤ m := by
            simp only [List.length_drop]
            omega
          rw [ih m _ hd hd2]
        · simp only [segCountAux, hp, Bool.false_eq_true, if_false]
          exact ih m cs h1 h2

theorem segCountL_eq_aux (l : List Char) (f : Nat) (h : l.length ≤ f) :
    segCountL l = segCountAux sepChars f l :=
  segCountAux_fuel_eq sepChars l.length f l (Nat.le_refl _) h

/-- The separator starts with a newline, so no match can start at a
non-newline character. -/
theorem sepChars_not_prefixOf (c : Char) (cs : List Char) (h : c ≠ '\n') :
    sepChars.isPrefixOf (c :: cs) = false := by
  have hb : ('\n' == c) = false := beq_eq_false_iff_ne.mpr (Ne.symm h)
  simp [sepChars, List.isPrefixOf, hb]

theorem segCountL_cons_of_ne (c : Char) (cs : List Char) (h : c ≠ '\n') :
    segCountL (c :: cs) = segCountL cs := by
  have hp := sepChars_not_prefixOf c cs h
  simp only [segCountL, List.length_cons, segCountAux, hp, Bool.false_eq_true,
    if_false]

/-- Scanning over a newline-free block consumes it without finding any
separator occurrence. -/
theorem segCountL_append_of_no_newline :
    ∀ (t rest : List Char), (∀ c ∈ t, c ≠ '\n') →
      segCountL (t ++ rest) = segCountL rest
  | [], _, _ => rfl
  | c :: t', rest, h => by
    rw [List.cons_append, segCountL_cons_of_ne c _ (h c (List.mem_cons_self c t'))]
    exact segCountL_append_of_no_newline t' rest
      (fun x hx => h x (List.mem_cons_of_mem _ hx))

/-- The scan consumes a leading separator as exactly one occurrence. -/
theorem segCountL_sep_append (rest : List Char) :
    segCountL (sepChars ++ rest) = 1 + segCountL rest := by
  have hlen : (sepChars ++ rest).length ≤ rest.length + 6 + 1 := by
    simp [sepChars]
  rw [segCountL_eq_aux (sepChars ++ rest) (rest.length + 6 + 1) hlen]
  have hshape : sepChars ++ rest
      = '\n' :: (['\n', '-', '-', '-', '\n', '\n'] ++ rest) := rfl
  rw [hshape]
  have hp : sepChars.isPrefixOf
      ('\n' :: (['\n', '-', '-', '-', '\n', '\n'] ++ rest)) = true := by
    simp [sepChars, List.isPrefixOf]
  simp only [segCountAux, hp, if_true]
  have hsl : sepChars.length - 1 = 6 := by simp [sepChars]
  rw [hsl]
  have hdrop : (['\n', '-', '-', '-', '\n', '\n'] ++ rest).drop 6 = rest :=
    List.drop_left' (by simp)
  rw [hdrop, ← segCountL_eq_aux rest (rest.length + 6) (by omega)]

/-- One piece of `List.intercalate`, unfolded. -/
theorem list_intercalate_cons {α : Type} (sep : List α) :
    ∀ (x : List α) (xs : List (List α)),
      List.intercalate sep (x :: xs)
        = x ++ (xs.map (fun y => sep ++ y)).flatten
  | _, [] => by simp [List.intercalate]
  | x, y :: ys => by
    have h := list_intercalate_cons sep y ys
    simp only [List.intercalate, List.intersperse_cons_cons, List.flatten_cons]
      at h ⊢
    rw [h]
    simp [List.append_assoc]

/-- Interleaving newline-free pieces with the separator yields one segment
per piece. -/
theorem segCountL_intercalate :
    ∀ (ts : List (List Char)), ts ≠ [] →
      (∀ t ∈ ts, ∀ c ∈ t, c ≠ '\n') →
      segCountL (List.intercalate sepChars ts) = ts.length
  | [], hne, _ => absurd rfl hne
  | [t], _, h => by
    have ht : ∀ c ∈ t, c ≠ '\n' := h t (List.mem_cons_self t [])
    have h1 := segCountL_append_of_no_newline t [] ht
    rw [List.append_nil] at h1
    have hi : List.intercalate sepChars [t] = t := by
      simp [List.intercalate]
    rw [hi, h1]
    simp [segCountL, segCountAux]
  | t :: t' :: ts', _, h => by
    have hi : List.intercalate sepChars (t :: t' :: ts')
        = t ++ (sepChars ++ List.intercalate sepChars (t' :: ts')) := by
      rw [list_intercalate_cons, list_intercalate_cons]
      simp [List.append_assoc]
    rw [hi, segCountL_append_of_no_newline t _ (h t (List.mem_cons_self t _)),
      segCountL_sep_append,
      segCountL_intercalate (t' :: ts') (List.cons_ne_nil _ _)
        (fun x hx => h x (List.mem_cons_of_mem _ hx))]
    simp [Nat.add_comm]

/-- `String.intercalate.go`, expressed on character data. -/
theorem intercalate_go_data (s : String) :
    ∀ (as : List String) (acc : String),
      (String.intercalate.go acc s as).data
        = acc.data ++ (as.map (fun a => s.data ++ a.data)).flatten
  | [], acc => by simp [String.intercalate.go]
  | a :: as, acc => by
    rw [String.intercalate.go, intercalate_go_data s as (acc ++ s ++ a)]
    simp [String.data_append, List.append_assoc]

/-- `String.intercalate` agrees with `List.intercalate` on character data. -/
theorem intercalate_data (s : String) (ts : List String) :
    (String.intercalate s ts).data
      = List.intercalate s.data (ts.map String.data) := by
  cases ts with
  | nil => rfl
  | cons a as =>
    rw [String.intercalate, intercalate_go_data s as a, List.map_cons,
      list_intercalate_cons, List.map_map]
    rfl

/-- C10 counterexample: the separator-delimited segment count of the output
does not always equal the number of returned vectors — a single vector
whose raw text itself contains the separator already produces two
segments. -/
theorem findRelevantContent_segment_count_counterexample :
    findRelevantContent (some "arn") (.ok [1])
        (.ok (some [mkTextVector "a\n\n---\n\nb"])) = "a\n\n---\n\nb" ∧
    segCount "a\n\n---\n\nb" = 2 ∧
    [mkTextVector "a\n\n---\n\nb"].length = 1 := by
  refine ⟨by decide, by decide, rfl⟩

/-- C10 (amended): a vector lacking the `AMAZON_BEDROCK_TEXT` field, or
lacking metadata entirely, contributes the empty string while the
separator is still inserted, so — provided at least one vector is returned
and no passage text contains a newline character (in particular none
contains the separator, which would inflate the count) — the number of
separator-delimited segments in the output equals the number of returned
vectors; an absent results array is treated as empty and yields the empty
string. -/
theorem findRelevantContent_segment_semantics
    (arn : String) (h : arn ≠ "") (emb : List Int)
    (vs : List VectorResult) (hne : vs ≠ [])
    (hnl : ∀ v ∈ vs, ∀ c ∈ (vectorText v).data, c ≠ '\n') :
    segCount (findRelevantContent (some arn) (.ok emb) (.ok (some vs)))
        = vs.length ∧
    vectorText ⟨none⟩ = "" ∧
    (∀ m : List (String × String), m.lookup "AMAZON_BEDROCK_TEXT" = none →
      vectorText ⟨some m⟩ = "") ∧
    findRelevantContent (some arn) (.ok emb) (.ok none) = "" := by
  have harn : envTruthy (some arn) = true := by simp [envTruthy, h]
  refine ⟨?_, rfl, fun m hm => by simp [vectorText, hm],
    by simp [findRelevantContent, harn, String.intercalate]⟩
  have hout : findRelevantContent (some arn) (.ok emb) (.ok (some vs))
      = String.intercalate ragSeparator (vs.map vectorText) := by
    simp [findRelevantContent, harn]
  rw [hout, segCount, intercalate_data]
  have hsep : ragSeparator.data = sepChars := by decide
  rw [hsep]
  have h1 : ((vs.map vectorText).map String.data) ≠ [] := by
    simpa using hne
  have h2 : ∀ t ∈ (vs.map vectorText).map String.data, ∀ c ∈ t, c ≠ '\n' := by
    intro t ht
    simp only [List.mem_map] at ht
    obtain ⟨x, hx, rfl⟩ := ht
    obtain ⟨v, hv, rfl⟩ := hx
    exact hnl v hv
  rw [segCountL_intercalate ((vs.map vectorText).map String.data) h1 h2]
  simp

/-- C10 witness: three vectors — a normal passage, one with no metadata and
one whose metadata lacks the raw-text field — yield three segments. -/
theorem findRelevantContent_segment_semantics_witness :
    segCount (findRelevantContent (some "arn:idx") (.ok [1])
        (.ok (some [mkTextVector "alpha", ⟨none⟩, ⟨some [("OTHER", "x")]⟩])))
        = 3 ∧
    vectorText ⟨none⟩ = "" ∧
    (∀ m : List (String × String), m.lookup "AMAZON_BEDROCK_TEXT" = none →
      vectorText ⟨some m⟩ = "") ∧
    findRelevantContent (some "arn:idx") (.ok [1]) (.ok none) = "" :=
  findRelevantContent_segment_semantics "arn:idx" (by decide) [1]
    [mkTextVector "alpha", ⟨none⟩, ⟨some [("OTHER", "x")]⟩]
    (by decide) (by decide)

end RagKb
